import Mathlib

namespace PathwayExplorer

/-- JSON values as returned by Python's json.load: null, booleans, numbers,
strings, arrays and objects. Objects keep their key/value pairs in order,
mirroring Python dict insertion order; numbers are modelled exactly as
rationals. -/
inductive Json where
  | null
  | bool (b : Bool)
  | num (q : ℚ)
  | str (s : String)
  | arr (elems : List Json)
  | obj (fields : List (String × Json))

/-- Python exceptions raised by the store's dictionary and file operations. -/
inductive PyError where
  | keyError (k : String)
  | typeError
  | ioError
  | fileNotFoundError
  deriving DecidableEq

mutual

/-- Python's == on JSON values (structural equality). -/
def pyEq : Json → Json → Bool
  | .null, .null => true
  | .bool a, .bool b => a == b
  | .num a, .num b => a == b
  | .str a, .str b => a == b
  | .arr xs, .arr ys => pyEqList xs ys
  | .obj xs, .obj ys => pyEqFields xs ys
  | _, _ => false

/-- Python's == on JSON arrays, elementwise. -/
def pyEqList : List Json → List Json → Bool
  | [], [] => true
  | x :: xs, y :: ys => pyEq x y && pyEqList xs ys
  | _, _ => false

/-- Python's == on JSON objects, as ordered field lists. -/
def pyEqFields : List (String × Json) → List (String × Json) → Bool
  | [], [] => true
  | f :: xs, g :: ys => (f.1 == g.1) && pyEq f.2 g.2 && pyEqFields xs ys
  | _, _ => false

end

/-- Python subscript lookup d[k]: KeyError when the key is absent from a
dict, TypeError when the value subscripted is not a dict. -/
def jsonGet (j : Json) (k : String) : Except PyError Json :=
  match j with
  | .obj fs =>
    match fs.lookup k with
    | some v => .ok v
    | none => .error (.keyError k)
  | _ => .error .typeError

/-- Replace the value bound to key k in a JSON object, modelling in-place
mutation of the list held under that key. Non-objects are left unchanged. -/
def jsonSetField (j : Json) (k : String) (v : Json) : Json :=
  match j with
  | .obj fs => .obj (fs.map (fun p => if p.1 = k then (k, v) else p))
  | j' => j'

/-- Rendering of a JSON value inside an f-string log message; pathway names
are strings, for which Python prints the string itself. -/
def jsonLogStr : Json → String
  | .str s => s
  | _ => ""

/-- Content of the backing file as seen by _load_data: absent, present but
not parseable as JSON, unreadable due to an I/O error, or a parsed JSON
document. -/
inductive FileContent where
  | missing
  | invalidJson
  | readError
  | json (j : Json)

/-- Empty document structure _load_data falls back to, stamped with the
current time. -/
def emptyDoc (now : String) : Json :=
  .obj [("pathways", .arr []), ("last_updated", .str now)]

namespace PathwayDatabase

/-- PathwayDatabase._load_data: return the parsed backing file when it
exists and parses; on a missing file, a JSON parse error or any other read
error, log and fall back to the empty structure. -/
def loadData (file : FileContent) (now : String) : Json :=
  match file with
  | .json j => j
  | _ => emptyDoc now

/-- Path.mkdir(exist_ok=True) on the backing file's parent directory (no
parents=True): succeeds when the directory already exists or when its own
parent exists so it can be created in one step, and raises
FileNotFoundError otherwise. Returns whether the directory exists
afterwards. -/
def mkdirParent (parentExists grandExists : Bool) : Except PyError Bool :=
  if parentExists then .ok true
  else if grandExists then .ok true
  else .error .fileNotFoundError

/-- PathwayDatabase.__init__: make the parent directory of the backing
file, then load the data file into memory. Returns the in-memory document
self.pathways. -/
def init (parentExists grandExists : Bool) (file : FileContent) (now : String) :
    Except PyError Json := do
  let _ ← mkdirParent parentExists grandExists
  .ok (loadData file now)

/-- PathwayDatabase.save: build the document to write from
self.pathways["pathways"] and a fresh timestamp, then write it, logging
and re-raising on write failure. First component: the content written to
the backing file, or the propagated error; second component: the in-memory
document after the call (the method assigns nothing to self.pathways). -/
def save (doc : Json) (writeOk : Bool) (now : String) :
    (Except PyError Json) × Json :=
  match jsonGet doc "pathways" with
  | .error e => (.error e, doc)
  | .ok pws =>
    if writeOk then
      (.ok (.obj [("pathways", pws), ("last_updated", .str now)]), doc)
    else
      (.error .ioError, doc)

/-- Generator scan any(p['name'] == pathway['name'] for p in entries):
evaluates p['name'] then pathway['name'] for each entry in order, stopping
at the first match. -/
def anyNameMatches (pathway : Json) : List Json → Except PyError Bool
  | [] => .ok false
  | p :: rest => do
    let pn ← jsonGet p "name"
    let tn ← jsonGet pathway "name"
    if pyEq pn tn then .ok true else anyNameMatches pathway rest

/-- PathwayDatabase.add_pathway: append the pathway dict to
self.pathways['pathways'] unless an existing entry has an equal 'name';
in either case print a log line mentioning pathway['name']. Returns the
log line and the in-memory document after the call. -/
def addPathway (doc : Json) (pathway : Json) :
    Except PyError (String × Json) := do
  let pws ← jsonGet doc "pathways"
  match pws with
  | .arr entries => do
    let dup ← anyNameMatches pathway entries
    let n ← jsonGet pathway "name"
    if dup then
      .ok ("Pathway already exists: " ++ jsonLogStr n, doc)
    else
      .ok ("Adding new pathway: " ++ jsonLogStr n,
           jsonSetField doc "pathways" (.arr (entries ++ [pathway])))
  | _ => .error .typeError

/-- PathwayDatabase.get_known_pathways, the second definition of that
method in the class body and hence the one in effect: the list
[p['name'] for p in self.pathways['pathways']] in stored order. -/
def getKnownPathways (doc : Json) : Except PyError (List Json) := do
  let pws ← jsonGet doc "pathways"
  match pws with
  | .arr entries => entries.mapM (fun p => jsonGet p "name")
  | _ => .error .typeError

end PathwayDatabase

/-- Python's str.lower on one character, for the ASCII pathway names the
spec discusses. -/
def lowerChar (c : Char) : Char :=
  if 65 ≤ c.toNat ∧ c.toNat ≤ 90 then Char.ofNat (c.toNat + 32) else c

/-- Python's str.lower on the ASCII pathway names the spec discusses. -/
def pyLower (s : String) : String := ⟨s.data.map lowerChar⟩

/-- The 'name' value of a stored entry when the entry is a dict that has
one. -/
def pyName? (p : Json) : Option Json :=
  match p with
  | .obj fs => fs.lookup "name"
  | _ => none

/-- An entry counts as named n when its 'name' field equals (Python ==)
the string n. -/
def entryHasName (n : String) (p : Json) : Bool :=
  match pyName? p with
  | some v => pyEq v (.str n)
  | none => false

/-- The stored entries named n, in order. -/
def entriesNamed (n : String) (l : List Json) : List Json :=
  l.filter (entryHasName n)

/-- No two entries of the list carry 'name' fields that Python == considers
equal (the store's uniqueness invariant); entries without a 'name' are
compared as absent. -/
def distinctNames : List Json → Bool
  | [] => true
  | p :: rest =>
    rest.all (fun q =>
      match pyName? p, pyName? q with
      | some a, some b => !(pyEq a b)
      | some _, none => true
      | none, some _ => true
      | none, none => false) && distinctNames rest

namespace PathwayDiscoveryLLMTool

/-- Join of the known-pathway names for the prompt: ", ".join raises
TypeError on a non-string element. -/
def joinNames (ks : List Json) : Except PyError String := do
  let ss ← ks.mapM (fun j =>
    match j with
    | .str s => Except.ok s
    | _ => Except.error PyError.typeError)
  .ok (String.intercalate ", " ss)

/-- PathwayDiscoveryLLMTool._run, lines building the known-pathways
context: known_pathways = self.database.get_known_pathways();
known_pathways_str = ", ".join(known_pathways) if known_pathways else
"none". -/
def knownPathwaysStr (doc : Json) : Except PyError String := do
  let ks ← PathwayDatabase.getKnownPathways doc
  if ks.isEmpty then .ok "none" else joinNames ks

end PathwayDiscoveryLLMTool

/-- Convenience constructor for a store document with the given entry list
and document timestamp. -/
def mkDoc (entries : List Json) (lu : String) : Json :=
  .obj [("pathways", .arr entries), ("last_updated", .str lu)]

section Helpers

/-- Characterisation of a successful Python dict lookup. -/
theorem jsonGet_ok_iff (p : Json) (k : String) (v : Json) :
    jsonGet p k = Except.ok v ↔ ∃ fs, p = Json.obj fs ∧ fs.lookup k = some v := by
  cases p with
  | obj fs => cases hl : fs.lookup k <;> simp [jsonGet, hl]
  | null => simp [jsonGet]
  | bool b => simp [jsonGet]
  | num q => simp [jsonGet]
  | str s => simp [jsonGet]
  | arr xs => simp [jsonGet]

theorem pyName?_of_jsonGet (p v : Json) (h : jsonGet p "name" = Except.ok v) :
    pyName? p = some v := by
  obtain ⟨fs, rfl, hl⟩ := (jsonGet_ok_iff p "name" v).mp h
  simp [pyName?, hl]

theorem lookup_map_set (fs : List (String × Json)) (k : String) (v w : Json)
    (h : fs.lookup k = some w) :
    (fs.map (fun p => if p.1 = k then (k, v) else p)).lookup k = some v := by
  induction fs with
  | nil => simp [List.lookup] at h
  | cons hd tl ih =>
    obtain ⟨k', v'⟩ := hd
    rw [List.map_cons]
    by_cases hk : k' = k
    · have hf : (if (k', v').1 = k then (k, v) else (k', v')) = (k, v) := by
        simp [hk]
      rw [hf]
      simp [List.lookup]
    · have hf : (if (k', v').1 = k then (k, v) else (k', v')) = (k', v') := by
        simp [hk]
      rw [hf]
      have hkk : (k == k') = false := beq_eq_false_iff_ne.mpr (Ne.symm hk)
      have h' : List.lookup k tl = some w := by
        simpa [List.lookup, hkk] using h
      simpa [List.lookup, hkk] using ih h'

theorem jsonGet_setField (doc : Json) (k : String) (v w : Json)
    (h : jsonGet doc k = Except.ok w) :
    jsonGet (jsonSetField doc k v) k = Except.ok v := by
  obtain ⟨fs, rfl, hl⟩ := (jsonGet_ok_iff doc k w).mp h
  exact (jsonGet_ok_iff _ k v).mpr ⟨_, rfl, lookup_map_set fs k v w hl⟩

theorem pyEq_str_self (s : String) : pyEq (.str s) (.str s) = true := by
  simp [pyEq]

theorem anyNameMatches_false (pathway tn : Json) (entries : List Json)
    (hpn : jsonGet pathway "name" = Except.ok tn)
    (h : ∀ p ∈ entries, ∃ v, jsonGet p "name" = Except.ok v ∧ pyEq v tn = false) :
    PathwayDatabase.anyNameMatches pathway entries = Except.ok false := by
  induction entries with
  | nil => rfl
  | cons p rest ih =>
    obtain ⟨v, hv, hne⟩ := h p (by simp)
    have ihr := ih (fun q hq => h q (by simp [hq]))
    unfold PathwayDatabase.anyNameMatches
    rw [hv, hpn]
    show (if pyEq v tn then Except.ok true
          else PathwayDatabase.anyNameMatches pathway rest) = Except.ok false
    rw [hne]
    simpa using ihr

theorem anyNameMatches_append_match (pathway tn : Json) (entries : List Json) (d w : Json)
    (hpn : jsonGet pathway "name" = Except.ok tn)
    (hd : jsonGet d "name" = Except.ok w)
    (hw : pyEq w tn = true)
    (h : ∀ p ∈ entries, ∃ v, jsonGet p "name" = Except.ok v ∧ pyEq v tn = false) :
    PathwayDatabase.anyNameMatches pathway (entries ++ [d]) = Except.ok true := by
  induction entries with
  | nil =>
    show PathwayDatabase.anyNameMatches pathway (d :: []) = Except.ok true
    unfold PathwayDatabase.anyNameMatches
    rw [hd, hpn]
    show (if pyEq w tn then Except.ok true
          else PathwayDatabase.anyNameMatches pathway []) = Except.ok true
    rw [hw]
    rfl
  | cons p rest ih =>
    obtain ⟨v, hv, hne⟩ := h p (by simp)
    have ihr := ih (fun q hq => h q (by simp [hq]))
    show PathwayDatabase.anyNameMatches pathway (p :: (rest ++ [d])) = Except.ok true
    unfold PathwayDatabase.anyNameMatches
    rw [hv, hpn]
    show (if pyEq v tn then Except.ok true
          else PathwayDatabase.anyNameMatches pathway (rest ++ [d])) = Except.ok true
    rw [hne]
    simpa using ihr

theorem addPathway_eval (doc : Json) (entries : List Json) (pathway : Json) (n : String)
    (hdoc : jsonGet doc "pathways" = Except.ok (.arr entries))
    (hpn : jsonGet pathway "name" = Except.ok (.str n))
    (b : Bool)
    (hb : PathwayDatabase.anyNameMatches pathway entries = Except.ok b) :
    PathwayDatabase.addPathway doc pathway =
      if b then Except.ok ("Pathway already exists: " ++ n, doc)
      else Except.ok ("Adding new pathway: " ++ n,
             jsonSetField doc "pathways" (.arr (entries ++ [pathway]))) := by
  unfold PathwayDatabase.addPathway
  rw [hdoc]
  show (do
      let dup ← PathwayDatabase.anyNameMatches pathway entries
      let nm ← jsonGet pathway "name"
      if dup then Except.ok ("Pathway already exists: " ++ jsonLogStr nm, doc)
      else Except.ok ("Adding new pathway: " ++ jsonLogStr nm,
        jsonSetField doc "pathways" (.arr (entries ++ [pathway])))) = _
  rw [hb, hpn]
  cases b <;> rfl

theorem entryHasName_of_name (p : Json) (n : String)
    (h : pyName? p = some (.str n)) : entryHasName n p = true := by
  simp [entryHasName, h, pyEq_str_self]

theorem entryHasName_false_of_ne (p v : Json) (n : String)
    (h : pyName? p = some v) (hne : pyEq v (.str n) = false) :
    entryHasName n p = false := by
  simp [entryHasName, h, hne]

theorem distinctNames_append_fresh (entries : List Json) (N : String) (d : Json)
    (hfresh : ∀ p ∈ entries, ∃ v, jsonGet p "name" = Except.ok v ∧
        pyEq v (.str N) = false)
    (hd : pyName? d = some (.str N))
    (hdist : distinctNames entries = true) :
    distinctNames (entries ++ [d]) = true := by
  induction entries with
  | nil => simp [distinctNames]
  | cons p rest ih =>
    simp only [distinctNames, Bool.and_eq_true, List.all_eq_true] at hdist
    obtain ⟨hall, hrest⟩ := hdist
    have ihr := ih (fun q hq => hfresh q (by simp [hq])) hrest
    simp only [List.cons_append, distinctNames, Bool.and_eq_true, List.all_eq_true]
    refine ⟨?_, ihr⟩
    intro q hq
    rcases List.mem_append.mp hq with hq | hq
    · exact hall q hq
    · obtain ⟨v, hv, hne⟩ := hfresh p (by simp)
      have hp := pyName?_of_jsonGet p v hv
      simp only [List.mem_singleton] at hq
      subst hq
      simp [hp, hd, hne]

end Helpers

section ConcreteStores

/-- A stored entry named A. -/
def entryA : Json := .obj [("name", .str "A"), ("id", .str "x")]

/-- A pre-existing stored entry named N. -/
def entryN : Json := .obj [("name", .str "N"), ("id", .str "x")]

/-- A raw dictionary named N, differing from entryN in its id field. -/
def dictN1 : Json := .obj [("name", .str "N"), ("id", .str "y")]

/-- A second raw dictionary named N, differing from both. -/
def dictN2 : Json := .obj [("name", .str "N"), ("id", .str "z")]

end ConcreteStores

/-- C1, counterexample: over a store state that already holds an entry named
N differing from d1, add(d1) and add(d2) are both no-ops and the single
entry named N is the pre-existing one, not d1's version, refuting the
claim's quantification over every store state. -/
theorem add_two_same_name_cex :
    (PathwayDatabase.addPathway (mkDoc [entryN] "t0") dictN1).bind
        (fun r => PathwayDatabase.addPathway r.2 dictN2) =
      Except.ok ("Pathway already exists: N", mkDoc [entryN] "t0") ∧
    entriesNamed "N" [entryN] = [entryN] ∧
    pyEq entryN dictN1 = false := by
  exact ⟨rfl, rfl, rfl⟩

/-- C1, amended: over a store state holding no entry named N, add(d1)
followed by add(d2), both carrying name N, inserts d1 and then is a logged
no-op: the store's entry list becomes exactly the old entries followed by
d1, the entries named N are exactly [d1] (d1's version, no overwrite), and
name-uniqueness of the entry list is preserved. -/
theorem add_insert_then_noop (doc : Json) (entries : List Json) (N : String)
    (d1 d2 : Json)
    (hdoc : jsonGet doc "pathways" = Except.ok (.arr entries))
    (hfresh : ∀ p ∈ entries, ∃ v, jsonGet p "name" = Except.ok v ∧
        pyEq v (.str N) = false)
    (h1 : jsonGet d1 "name" = Except.ok (.str N))
    (h2 : jsonGet d2 "name" = Except.ok (.str N)) :
    PathwayDatabase.addPathway doc d1 =
      Except.ok ("Adding new pathway: " ++ N,
        jsonSetField doc "pathways" (.arr (entries ++ [d1]))) ∧
    PathwayDatabase.addPathway
        (jsonSetField doc "pathways" (.arr (entries ++ [d1]))) d2 =
      Except.ok ("Pathway already exists: " ++ N,
        jsonSetField doc "pathways" (.arr (entries ++ [d1]))) ∧
    entriesNamed N (entries ++ [d1]) = [d1] ∧
    (distinctNames entries = true → distinctNames (entries ++ [d1]) = true) := by
  have hins := addPathway_eval doc entries d1 N hdoc h1 false
    (anyNameMatches_false d1 (.str N) entries h1 hfresh)
  have hdoc1 : jsonGet (jsonSetField doc "pathways" (.arr (entries ++ [d1])))
      "pathways" = Except.ok (.arr (entries ++ [d1])) :=
    jsonGet_setField doc "pathways" _ _ hdoc
  have hnoop := addPathway_eval _ (entries ++ [d1]) d2 N hdoc1 h2 true
    (anyNameMatches_append_match d2 (.str N) entries d1 (.str N) h2 h1
      (pyEq_str_self N) hfresh)
  refine ⟨by simpa using hins, by simpa using hnoop, ?_, ?_⟩
  · have hnil : entriesNamed N entries = [] := by
      simp only [entriesNamed, List.filter_eq_nil_iff]
      intro p hp
      obtain ⟨v, hv, hne⟩ := hfresh p hp
      simp [entryHasName_false_of_ne p v N (pyName?_of_jsonGet p v hv) hne]
    have hd1 : entryHasName N d1 = true :=
      entryHasName_of_name d1 N (pyName?_of_jsonGet d1 _ h1)
    simp [entriesNamed, List.filter_append, hd1]
    simpa [entriesNamed] using hnil
  · exact distinctNames_append_fresh entries N d1 hfresh
      (pyName?_of_jsonGet d1 _ h1)

/-- C1, witness: a concrete run of the amended theorem on a store holding
only an entry named A, with d1 and d2 both named N. -/
theorem add_insert_then_noop_witness :
    PathwayDatabase.addPathway (mkDoc [entryA] "t0") dictN1 =
      Except.ok ("Adding new pathway: N",
        jsonSetField (mkDoc [entryA] "t0") "pathways" (.arr ([entryA] ++ [dictN1]))) ∧
    PathwayDatabase.addPathway
        (jsonSetField (mkDoc [entryA] "t0") "pathways" (.arr ([entryA] ++ [dictN1]))) dictN2 =
      Except.ok ("Pathway already exists: N",
        jsonSetField (mkDoc [entryA] "t0") "pathways" (.arr ([entryA] ++ [dictN1]))) ∧
    entriesNamed "N" ([entryA] ++ [dictN1]) = [dictN1] ∧
    (distinctNames [entryA] = true → distinctNames ([entryA] ++ [dictN1]) = true) :=
  add_insert_then_noop (mkDoc [entryA] "t0") [entryA] "N" dictN1 dictN2 rfl
    (by
      intro p hp
      simp only [List.mem_singleton] at hp
      subst hp
      exact ⟨.str "A", rfl, rfl⟩)
    rfl rfl

section MoreHelpers

theorem addPathway_unfold (doc : Json) (entries : List Json) (pathway : Json)
    (hdoc : jsonGet doc "pathways" = Except.ok (.arr entries)) :
    PathwayDatabase.addPathway doc pathway = (do
      let dup ← PathwayDatabase.anyNameMatches pathway entries
      let nm ← jsonGet pathway "name"
      if dup then Except.ok ("Pathway already exists: " ++ jsonLogStr nm, doc)
      else Except.ok ("Adding new pathway: " ++ jsonLogStr nm,
        jsonSetField doc "pathways" (.arr (entries ++ [pathway])))) := by
  unfold PathwayDatabase.addPathway
  rw [hdoc]
  rfl

theorem getKnownPathways_of_forall₂ (doc : Json) (entries names : List Json)
    (hdoc : jsonGet doc "pathways" = Except.ok (.arr entries))
    (hnames : List.Forall₂ (fun p n => jsonGet p "name" = Except.ok n)
      entries names) :
    PathwayDatabase.getKnownPathways doc = Except.ok names := by
  unfold PathwayDatabase.getKnownPathways
  rw [hdoc]
  show entries.mapM (fun p => jsonGet p "name") = Except.ok names
  clear hdoc
  induction hnames with
  | nil => rfl
  | cons h hs ih =>
    rw [List.mapM_cons, h, ih]
    rfl

/-- Element extraction performed by ", ".join: each joined element must be a
string, otherwise Python raises TypeError. -/
def strOfJson : Json → Except PyError String
  | .str s => .ok s
  | _ => .error .typeError

theorem mapM_strOfJson (names : List String) :
    (names.map Json.str).mapM strOfJson = Except.ok names := by
  induction names with
  | nil => rfl
  | cons hd tl ih =>
    rw [List.map_cons, List.mapM_cons, ih]
    rfl

end MoreHelpers

/-- The store document holding exactly one pathway, named Glycolysis. -/
def glyDoc : Json := mkDoc [Json.obj [("name", .str "Glycolysis")]] "t0"

/-- The store document holding pathways named A, B, C in that order. -/
def docABC : Json :=
  mkDoc [Json.obj [("name", .str "A")], Json.obj [("name", .str "B")],
    Json.obj [("name", .str "C")]] "t0"

/-- C2: get_known_pathways returns the name field of every stored pathway
as a list in the store's internal insertion order. -/
theorem get_known_pathways_ordered (doc : Json) (entries names : List Json)
    (hdoc : jsonGet doc "pathways" = Except.ok (.arr entries))
    (hnames : List.Forall₂ (fun p n => jsonGet p "name" = Except.ok n)
      entries names) :
    PathwayDatabase.getKnownPathways doc = Except.ok names :=
  getKnownPathways_of_forall₂ doc entries names hdoc hnames

/-- C2, witness: after loading a document whose pathways are named A, B, C
in that order, get_known_pathways returns exactly that name list. -/
theorem get_known_pathways_ordered_witness :
    PathwayDatabase.getKnownPathways
        (PathwayDatabase.loadData (.json docABC) "t1") =
      Except.ok [.str "A", .str "B", .str "C"] :=
  get_known_pathways_ordered (PathwayDatabase.loadData (.json docABC) "t1")
    [Json.obj [("name", .str "A")], Json.obj [("name", .str "B")],
      Json.obj [("name", .str "C")]]
    [.str "A", .str "B", .str "C"] rfl
    (.cons rfl (.cons rfl (.cons rfl .nil)))

/-- C3, counterexample: the discovery tool obtains its avoid-duplicates
context through the effective get_known_pathways, which returns stored
names verbatim; for a store holding "Glycolysis" the name supplied to the
prompt is "Glycolysis", not its lower-casing "glycolysis". -/
theorem discovery_context_lowercase_cex :
    PathwayDatabase.getKnownPathways glyDoc = Except.ok [.str "Glycolysis"] ∧
    PathwayDiscoveryLLMTool.knownPathwaysStr glyDoc =
      Except.ok "Glycolysis" ∧
    pyLower "Glycolysis" ≠ "Glycolysis" := by
  refine ⟨rfl, rfl, ?_⟩
  decide

/-- C3, amended: the sequence of known pathway names supplied to the
discovery adapter is the store's name sequence verbatim, in original case
(joined with ", ", or the literal "none" when the store is empty); the
earlier lower-casing accessor definition is shadowed and inert. -/
theorem discovery_context_verbatim (doc : Json) (entries : List Json)
    (names : List String)
    (hdoc : jsonGet doc "pathways" = Except.ok (.arr entries))
    (hnames : List.Forall₂
      (fun p n => jsonGet p "name" = Except.ok (.str n)) entries names) :
    PathwayDatabase.getKnownPathways doc = Except.ok (names.map Json.str) ∧
    PathwayDiscoveryLLMTool.knownPathwaysStr doc =
      Except.ok (if names.isEmpty then "none"
                 else String.intercalate ", " names) := by
  have hk : PathwayDatabase.getKnownPathways doc =
      Except.ok (names.map Json.str) :=
    getKnownPathways_of_forall₂ doc entries (names.map Json.str) hdoc
      (List.forall₂_map_right_iff.mpr hnames)
  refine ⟨hk, ?_⟩
  unfold PathwayDiscoveryLLMTool.knownPathwaysStr
  rw [hk]
  show (if (names.map Json.str).isEmpty then Except.ok "none"
        else PathwayDiscoveryLLMTool.joinNames (names.map Json.str)) = _
  cases names with
  | nil => rfl
  | cons hd tl =>
    show PathwayDiscoveryLLMTool.joinNames ((hd :: tl).map Json.str) =
      Except.ok (String.intercalate ", " (hd :: tl))
    unfold PathwayDiscoveryLLMTool.joinNames
    rw [show ((hd :: tl).map Json.str).mapM (fun j =>
          match j with
          | Json.str s => Except.ok s
          | _ => Except.error PyError.typeError) =
        Except.ok (hd :: tl) from mapM_strOfJson (hd :: tl)]
    rfl

/-- C3, witness: the amended theorem evaluated on the Glycolysis store. -/
theorem discovery_context_verbatim_witness :
    PathwayDatabase.getKnownPathways glyDoc =
      Except.ok ((["Glycolysis"] : List String).map Json.str) ∧
    PathwayDiscoveryLLMTool.knownPathwaysStr glyDoc =
      Except.ok (if (["Glycolysis"] : List String).isEmpty then "none"
                 else String.intercalate ", " ["Glycolysis"]) :=
  discovery_context_verbatim glyDoc [Json.obj [("name", .str "Glycolysis")]]
    ["Glycolysis"] rfl (.cons rfl .nil)

section KeyErrorHelpers

theorem anyNameMatches_entry_nameless (pathway : Json) (rest : List Json)
    (fs : List (String × Json)) (hl : fs.lookup "name" = none) :
    PathwayDatabase.anyNameMatches pathway (Json.obj fs :: rest) =
      Except.error (.keyError "name") := by
  unfold PathwayDatabase.anyNameMatches
  rw [show jsonGet (Json.obj fs) "name" = Except.error (.keyError "name")
    from by simp [jsonGet, hl]]
  rfl

theorem anyNameMatches_err (pathway p : Json) (rest : List Json)
    (fs : List (String × Json)) (hp : p = Json.obj fs)
    (hperr : jsonGet pathway "name" = Except.error (.keyError "name")) :
    PathwayDatabase.anyNameMatches pathway (p :: rest) =
      Except.error (.keyError "name") := by
  subst hp
  cases hl : fs.lookup "name" with
  | none => exact anyNameMatches_entry_nameless pathway rest fs hl
  | some v =>
    unfold PathwayDatabase.anyNameMatches
    rw [show jsonGet (Json.obj fs) "name" = Except.ok v from by
      simp [jsonGet, hl]]
    rw [hperr]
    rfl

theorem anyNameMatches_pre_nameless (pathway tn : Json) (pre rest : List Json)
    (fs : List (String × Json))
    (hl : fs.lookup "name" = none)
    (hpn : jsonGet pathway "name" = Except.ok tn)
    (hpre : ∀ p ∈ pre, ∃ v, jsonGet p "name" = Except.ok v ∧
        pyEq v tn = false) :
    PathwayDatabase.anyNameMatches pathway (pre ++ Json.obj fs :: rest) =
      Except.error (.keyError "name") := by
  induction pre with
  | nil => exact anyNameMatches_entry_nameless pathway rest fs hl
  | cons q qre ih =>
    obtain ⟨v, hv, hne⟩ := hpre q (by simp)
    have ihr := ih (fun r hr => hpre r (by simp [hr]))
    show PathwayDatabase.anyNameMatches pathway
      (q :: (qre ++ Json.obj fs :: rest)) = _
    unfold PathwayDatabase.anyNameMatches
    rw [hv, hpn]
    show (if pyEq v tn then Except.ok true
          else PathwayDatabase.anyNameMatches pathway
            (qre ++ Json.obj fs :: rest)) = _
    rw [hne]
    simpa using ihr

end KeyErrorHelpers

/-- C8, counterexample: a store may hold an entry lacking 'name' and an add
whose name matches an earlier entry still short-circuits to a logged no-op
instead of raising KeyError. -/
theorem add_nameless_entry_no_raise_cex :
    PathwayDatabase.addPathway (mkDoc [entryA, Json.obj []] "t0")
        (Json.obj [("name", .str "A")]) =
      Except.ok ("Pathway already exists: A",
        mkDoc [entryA, Json.obj []] "t0") := rfl

/-- C8, amended: add_pathway raises KeyError('name') whenever its argument
dict lacks the key 'name' (given the stored entries are dicts), and
whenever a stored entry lacking 'name' is scanned before any entry whose
name matches the argument's name; a nameless entry after a match is not
reached. -/
theorem add_pathway_keyerror_name (doc : Json) (entries : List Json)
    (pathway : Json)
    (hdoc : jsonGet doc "pathways" = Except.ok (.arr entries)) :
    ((∀ p ∈ entries, ∃ fs, p = Json.obj fs) →
      (∃ gs, pathway = Json.obj gs) → pyName? pathway = none →
      PathwayDatabase.addPathway doc pathway =
        Except.error (.keyError "name")) ∧
    (∀ (pre : List Json) (fs : List (String × Json)) (rest : List Json)
        (tn : Json),
      entries = pre ++ Json.obj fs :: rest →
      fs.lookup "name" = none →
      jsonGet pathway "name" = Except.ok tn →
      (∀ p ∈ pre, ∃ v, jsonGet p "name" = Except.ok v ∧ pyEq v tn = false) →
      PathwayDatabase.addPathway doc pathway =
        Except.error (.keyError "name")) := by
  constructor
  · rintro hobj ⟨gs, hg⟩ hnone
    have hperr : jsonGet pathway "name" = Except.error (.keyError "name") := by
      subst hg
      simp only [pyName?] at hnone
      simp [jsonGet, hnone]
    cases entries with
    | nil =>
      rw [addPathway_unfold doc [] pathway hdoc, hperr]
      rfl
    | cons p rest =>
      obtain ⟨fs', hp⟩ := hobj p (by simp)
      rw [addPathway_unfold doc (p :: rest) pathway hdoc,
        anyNameMatches_err pathway p rest fs' hp hperr]
      rfl
  · intro pre fs rest tn hsplit hlnone hpn hpre
    subst hsplit
    rw [addPathway_unfold doc _ pathway hdoc,
      anyNameMatches_pre_nameless pathway tn pre rest fs hlnone hpn hpre]
    rfl

/-- C8, witness: a dict without 'name' raises against a store of dicts, and
a nameless stored entry scanned before any match raises. -/
theorem add_pathway_keyerror_name_witness :
    PathwayDatabase.addPathway (mkDoc [entryA] "t0")
        (Json.obj [("id", .str "q")]) = Except.error (.keyError "name") ∧
    PathwayDatabase.addPathway (mkDoc [entryA, Json.obj [], entryN] "t0")
        (Json.obj [("name", .str "N")]) =
      Except.error (.keyError "name") :=
  ⟨(add_pathway_keyerror_name (mkDoc [entryA] "t0") [entryA]
      (Json.obj [("id", .str "q")]) rfl).1
      (by
        intro p hp
        simp only [List.mem_singleton] at hp
        subst hp
        exact ⟨_, rfl⟩)
      ⟨_, rfl⟩ rfl,
   (add_pathway_keyerror_name (mkDoc [entryA, Json.obj [], entryN] "t0")
      [entryA, Json.obj [], entryN] (Json.obj [("name", .str "N")]) rfl).2
      [entryA] [] [entryN] (.str "N") rfl rfl rfl
      (by
        intro p hp
        simp only [List.mem_singleton] at hp
        subst hp
        exact ⟨.str "A", rfl, rfl⟩)⟩

/-- C9: _load_data returns any successfully parsed JSON document unchanged,
with no validation and no deduplication; in particular a backing file whose
pathways array holds two entries both named N loads into a store that
already violates the name-uniqueness invariant. -/
theorem load_wholesale_allows_duplicates :
    (∀ (j : Json) (now : String), PathwayDatabase.loadData (.json j) now = j) ∧
    PathwayDatabase.loadData (.json (mkDoc [entryN, dictN1] "t0")) "t1" =
      mkDoc [entryN, dictN1] "t0" ∧
    jsonGet (mkDoc [entryN, dictN1] "t0") "pathways" =
      Except.ok (.arr [entryN, dictN1]) ∧
    distinctNames [entryN, dictN1] = false :=
  ⟨fun _ _ => rfl, rfl, rfl, rfl⟩

/-- C4, counterexample: when the parent directory of the backing file is
missing and its own parent is missing too, Path.mkdir(exist_ok=True)
without parents=True raises FileNotFoundError, so constructing the store
raises even though the backing file is merely absent. -/
theorem init_raises_cex :
    PathwayDatabase.init false false .missing "t0" =
      Except.error .fileNotFoundError := rfl

/-- C4, amended: provided the parent directory of the backing file exists,
or its own parent exists so that mkdir can create it in one step,
construction never raises: the parent directory is ensured to exist, a
parsed backing file is adopted as the document, and a missing file,
unparseable JSON or any other read error falls back to the empty document
with zero pathways after logging. -/
theorem init_no_raise (pe ge : Bool) (file : FileContent) (now : String)
    (h : pe = true ∨ ge = true) :
    PathwayDatabase.mkdirParent pe ge = Except.ok true ∧
    PathwayDatabase.init pe ge file now =
      Except.ok (PathwayDatabase.loadData file now) ∧
    (∀ j, file = .json j → PathwayDatabase.loadData file now = j) ∧
    ((file = .missing ∨ file = .invalidJson ∨ file = .readError) →
      PathwayDatabase.loadData file now = emptyDoc now ∧
      jsonGet (emptyDoc now) "pathways" = Except.ok (.arr [])) := by
  have hm : PathwayDatabase.mkdirParent pe ge = Except.ok true := by
    cases pe with
    | true => rfl
    | false =>
      cases ge with
      | true => rfl
      | false => rcases h with h | h <;> exact absurd h (by simp)
  refine ⟨hm, ?_, ?_, ?_⟩
  · unfold PathwayDatabase.init
    rw [hm]
    rfl
  · intro j hj
    subst hj
    rfl
  · intro hf
    rcases hf with hf | hf | hf <;> subst hf <;> exact ⟨rfl, rfl⟩

/-- C4, witness: with the parent directory present, loading a file of
invalid JSON yields the empty document without raising. -/
theorem init_no_raise_witness :
    PathwayDatabase.mkdirParent true false = Except.ok true ∧
    PathwayDatabase.init true false .invalidJson "t0" =
      Except.ok (PathwayDatabase.loadData .invalidJson "t0") ∧
    (∀ j, FileContent.invalidJson = FileContent.json j →
      PathwayDatabase.loadData .invalidJson "t0" = j) ∧
    ((FileContent.invalidJson = FileContent.missing ∨
      FileContent.invalidJson = FileContent.invalidJson ∨
      FileContent.invalidJson = FileContent.readError) →
      PathwayDatabase.loadData .invalidJson "t0" = emptyDoc "t0" ∧
      jsonGet (emptyDoc "t0") "pathways" = Except.ok (.arr [])) :=
  init_no_raise true false .invalidJson "t0" (Or.inl rfl)

/-- C5, counterexample: a store whose in-memory document is valid JSON
without a "pathways" key (loadable from disk as-is) makes save raise a
KeyError before any write happens, even when writing would succeed, so
save raising is not equivalent to write failure. -/
theorem save_raises_without_write_failure_cex :
    PathwayDatabase.loadData (.json (Json.obj [("foo", .str "bar")])) "t0" =
      Json.obj [("foo", .str "bar")] ∧
    (PathwayDatabase.save (Json.obj [("foo", .str "bar")]) true "t1").1 =
      Except.error (.keyError "pathways") :=
  ⟨rfl, rfl⟩

/-- C5, amended: for every store whose in-memory document carries the
"pathways" key, save raises exactly when writing the backing file fails
(the error is propagated to the caller), and on success the file is
overwritten entirely with the full in-memory pathway list plus a freshly
generated last-updated timestamp. -/
theorem save_raises_iff_write_fails (doc pws : Json) (now : String)
    (h : jsonGet doc "pathways" = Except.ok pws) :
    (∀ wk, (∃ w, (PathwayDatabase.save doc wk now).1 = Except.ok w) ↔
      wk = true) ∧
    (PathwayDatabase.save doc false now).1 = Except.error .ioError ∧
    (PathwayDatabase.save doc true now).1 =
      Except.ok (.obj [("pathways", pws), ("last_updated", .str now)]) := by
  unfold PathwayDatabase.save
  rw [h]
  refine ⟨?_, rfl, rfl⟩
  intro wk
  cases wk with
  | true => simp
  | false => simp

/-- C5, witness: the amended theorem evaluated on a one-entry store. -/
theorem save_raises_iff_write_fails_witness :
    (∀ wk, (∃ w, (PathwayDatabase.save (mkDoc [entryA] "t0") wk "t1").1 =
      Except.ok w) ↔ wk = true) ∧
    (PathwayDatabase.save (mkDoc [entryA] "t0") false "t1").1 =
      Except.error .ioError ∧
    (PathwayDatabase.save (mkDoc [entryA] "t0") true "t1").1 =
      Except.ok (.obj [("pathways", .arr [entryA]),
        ("last_updated", .str "t1")]) :=
  save_raises_iff_write_fails (mkDoc [entryA] "t0") (.arr [entryA]) "t1" rfl

/-- C6: saving and then constructing a fresh store from the written file
reproduces the same pathway list Json, hence the same names, nested field
values and order; the written document's last_updated is the fresh save
timestamp, which may differ from the original document's. -/
theorem save_load_roundtrip (doc pws : Json) (now nowLoad : String)
    (h : jsonGet doc "pathways" = Except.ok pws) :
    ∃ w, (PathwayDatabase.save doc true now).1 = Except.ok w ∧
      PathwayDatabase.init true true (.json w) nowLoad = Except.ok w ∧
      jsonGet w "pathways" = Except.ok pws ∧
      PathwayDatabase.getKnownPathways w =
        PathwayDatabase.getKnownPathways doc ∧
      jsonGet w "last_updated" = Except.ok (.str now) := by
  refine ⟨.obj [("pathways", pws), ("last_updated", .str now)],
    ?_, rfl, rfl, ?_, rfl⟩
  · unfold PathwayDatabase.save
    rw [h]
    rfl
  · unfold PathwayDatabase.getKnownPathways
    rw [h]
    rfl

/-- C6, witness: round trip on a two-entry store with a changed
timestamp. -/
theorem save_load_roundtrip_witness :
    ∃ w, (PathwayDatabase.save (mkDoc [entryA, entryN] "t0") true "t1").1 =
        Except.ok w ∧
      PathwayDatabase.init true true (.json w) "t2" = Except.ok w ∧
      jsonGet w "pathways" = Except.ok (.arr [entryA, entryN]) ∧
      PathwayDatabase.getKnownPathways w =
        PathwayDatabase.getKnownPathways (mkDoc [entryA, entryN] "t0") ∧
      jsonGet w "last_updated" = Except.ok (.str "t1") :=
  save_load_roundtrip (mkDoc [entryA, entryN] "t0") (.arr [entryA, entryN])
    "t1" "t2" rfl

/-- C10: save leaves the in-memory document unchanged — the pathway list is
untouched and the in-memory last_updated keeps its old value — while the
content written to disk carries the in-memory pathway list and the freshly
generated timestamp. -/
theorem save_frame (doc pws : Json) (wk : Bool) (now : String)
    (h : jsonGet doc "pathways" = Except.ok pws) :
    (PathwayDatabase.save doc wk now).2 = doc ∧
    (∀ lu, jsonGet doc "last_updated" = Except.ok lu →
      jsonGet (PathwayDatabase.save doc wk now).2 "last_updated" =
        Except.ok lu) ∧
    (PathwayDatabase.save doc true now).1 =
      Except.ok (.obj [("pathways", pws), ("last_updated", .str now)]) := by
  have h2 : (PathwayDatabase.save doc wk now).2 = doc := by
    unfold PathwayDatabase.save
    rw [h]
    cases wk <;> rfl
  refine ⟨h2, ?_, ?_⟩
  · intro lu hlu
    rw [h2]
    exact hlu
  · unfold PathwayDatabase.save
    rw [h]
    rfl

/-- C10, witness: a store stamped t0 keeps t0 in memory after a save that
writes t1 to disk. -/
theorem save_frame_witness :
    (PathwayDatabase.save (mkDoc [entryA] "t0") true "t1").2 =
      mkDoc [entryA] "t0" ∧
    (∀ lu, jsonGet (mkDoc [entryA] "t0") "last_updated" = Except.ok lu →
      jsonGet (PathwayDatabase.save (mkDoc [entryA] "t0") true "t1").2
        "last_updated" = Except.ok lu) ∧
    (PathwayDatabase.save (mkDoc [entryA] "t0") true "t1").1 =
      Except.ok (.obj [("pathways", .arr [entryA]),
        ("last_updated", .str "t1")]) :=
  save_frame (mkDoc [entryA] "t0") (.arr [entryA]) true "t1" rfl

section RecordModel

/-- Validation error raised at record construction, naming the offending
field: a required field absent, or a numeric bound violated. -/
inductive VError where
  | missing (field : String)
  | outOfRange (field : String)
  deriving DecidableEq

/-- Raw keyword arguments for Compound: each declared field either supplied
with a value of its declared type or absent. -/
structure RawCompound where
  id : Option String
  name : Option String
  formula : Option String

/-- Compound model: id and name required strings, formula an optional
string defaulting to None. -/
structure Compound where
  id : String
  name : String
  formula : Option String

/-- Raw keyword arguments for Reaction. -/
structure RawReaction where
  reactants : Option (List String)
  products : Option (List String)
  enzymes : Option (List String)

/-- Reaction model: reactants and products required lists of compound ids,
enzymes defaulting to the empty list. -/
structure Reaction where
  reactants : List String
  products : List String
  enzymes : List String

/-- Raw keyword arguments for PathwayMetadata. -/
structure RawMetadata where
  source : Option String
  confidence : Option ℚ
  last_updated : Option String
  verification_status : Option String
  llm_validation_notes : Option String

/-- PathwayMetadata model: source required, confidence required and
constrained to 0 ≤ confidence ≤ 1, last_updated defaulting to the current
time, verification_status defaulting to "unverified", notes optional. -/
structure PathwayMetadata where
  source : String
  confidence : ℚ
  last_updated : String
  verification_status : String
  llm_validation_notes : Option String

/-- Raw keyword arguments for Pathway. -/
structure RawPathway where
  id : Option String
  name : Option String
  description : Option String
  compounds : Option (List RawCompound)
  reactions : Option (List RawReaction)
  metadata : Option RawMetadata
  related_pathways : Option (List String)

/-- Pathway model: id, name and metadata required; description optional;
compounds, reactions and related_pathways defaulting to empty lists. -/
structure Pathway where
  id : String
  name : String
  description : Option String
  compounds : List Compound
  reactions : List Reaction
  metadata : PathwayMetadata
  related_pathways : List String

/-- Construction of a Compound: required fields checked in declaration
order, first failure reported. -/
def Compound.validate (r : RawCompound) : Except VError Compound :=
  match r.id with
  | none => .error (.missing "id")
  | some i =>
    match r.name with
    | none => .error (.missing "name")
    | some n => .ok ⟨i, n, r.formula⟩

/-- Construction of a Reaction: required fields checked in declaration
order, enzymes defaulting to the empty list. -/
def Reaction.validate (r : RawReaction) : Except VError Reaction :=
  match r.reactants with
  | none => .error (.missing "reactants")
  | some rs =>
    match r.products with
    | none => .error (.missing "products")
    | some ps => .ok ⟨rs, ps, r.enzymes.getD []⟩

/-- Construction of PathwayMetadata: source and confidence required,
confidence constrained to the closed interval from 0 to 1, defaults for
the remaining fields. -/
def PathwayMetadata.validate (m : RawMetadata) (now : String) :
    Except VError PathwayMetadata :=
  match m.source with
  | none => .error (.missing "source")
  | some src =>
    match m.confidence with
    | none => .error (.missing "confidence")
    | some c =>
      if 0 ≤ c ∧ c ≤ 1 then
        .ok ⟨src, c, m.last_updated.getD now,
          m.verification_status.getD "unverified", m.llm_validation_notes⟩
      else .error (.outOfRange "confidence")

/-- Construction of a Pathway: fields validated in declaration order (id,
name, compounds, reactions, metadata), nested records validated
recursively, defaults for the optional collections. -/
def Pathway.validate (r : RawPathway) (now : String) : Except VError Pathway :=
  match r.id with
  | none => .error (.missing "id")
  | some i =>
    match r.name with
    | none => .error (.missing "name")
    | some n => do
      let cs ← (r.compounds.getD []).mapM Compound.validate
      let rs ← (r.reactions.getD []).mapM Reaction.validate
      match r.metadata with
      | none => Except.error (.missing "metadata")
      | some m => do
        let md ← PathwayMetadata.validate m now
        Except.ok ⟨i, n, r.description, cs, rs, md,
          r.related_pathways.getD []⟩

/-- A raw Compound passes its required-field checks. -/
def RawCompound.wf (r : RawCompound) : Bool := r.id.isSome && r.name.isSome

/-- A raw Reaction passes its required-field checks. -/
def RawReaction.wf (r : RawReaction) : Bool :=
  r.reactants.isSome && r.products.isSome

/-- A raw PathwayMetadata passes its required-field and range checks. -/
def RawMetadata.wf (m : RawMetadata) : Bool :=
  m.source.isSome &&
    match m.confidence with
    | some c => decide (0 ≤ c) && decide (c ≤ 1)
    | none => false

/-- A raw Pathway passes every check of the construction contract. -/
def RawPathway.wellFormed (r : RawPathway) : Bool :=
  r.id.isSome && r.name.isSome &&
    (r.compounds.getD []).all RawCompound.wf &&
    (r.reactions.getD []).all RawReaction.wf &&
    (match r.metadata with
     | some m => m.wf
     | none => false)

end RecordModel

section RecordModelHelpers

theorem except_bind_ok {ε α β : Type} (a : α) (f : α → Except ε β) :
    (Except.ok a >>= f) = f a := rfl

theorem except_bind_error {ε α β : Type} (e : ε) (f : α → Except ε β) :
    ((Except.error e : Except ε α) >>= f) = Except.error e := rfl

theorem compound_validate_ok_iff (r : RawCompound) :
    (∃ c, Compound.validate r = Except.ok c) ↔ RawCompound.wf r = true := by
  cases hid : r.id <;> cases hn : r.name <;>
    simp [Compound.validate, RawCompound.wf, hid, hn]

theorem reaction_validate_ok_iff (r : RawReaction) :
    (∃ c, Reaction.validate r = Except.ok c) ↔ RawReaction.wf r = true := by
  cases hr : r.reactants <;> cases hp : r.products <;>
    simp [Reaction.validate, RawReaction.wf, hr, hp]

theorem metadata_validate_ok_iff (m : RawMetadata) (now : String) :
    (∃ md, PathwayMetadata.validate m now = Except.ok md) ↔
      RawMetadata.wf m = true := by
  cases hs : m.source with
  | none => simp [PathwayMetadata.validate, RawMetadata.wf, hs]
  | some src =>
    cases hc : m.confidence with
    | none => simp [PathwayMetadata.validate, RawMetadata.wf, hs, hc]
    | some c =>
      by_cases hcc : 0 ≤ c ∧ c ≤ 1 <;>
        simp [PathwayMetadata.validate, RawMetadata.wf, hs, hc, hcc]

theorem mapM_validate_ok_iff {α β : Type} (f : α → Except VError β)
    (wf : α → Bool) (hf : ∀ a, (∃ b, f a = Except.ok b) ↔ wf a = true)
    (l : List α) :
    (∃ bs, l.mapM f = Except.ok bs) ↔ l.all wf = true := by
  induction l with
  | nil =>
    constructor
    · intro _
      rfl
    · intro _
      exact ⟨[], rfl⟩
  | cons hd tl ih =>
    rw [List.mapM_cons]
    constructor
    · rintro ⟨bs, hbs⟩
      cases hfd : f hd with
      | error e =>
        rw [hfd, except_bind_error] at hbs
        exact absurd hbs (by simp)
      | ok b =>
        rw [hfd, except_bind_ok] at hbs
        cases htl : tl.mapM f with
        | error e =>
          rw [htl, except_bind_error] at hbs
          exact absurd hbs (by simp)
        | ok bs' =>
          simp only [List.all_cons, Bool.and_eq_true]
          exact ⟨(hf hd).mp ⟨b, hfd⟩, ih.mp ⟨bs', htl⟩⟩
    · intro hall
      simp only [List.all_cons, Bool.and_eq_true] at hall
      obtain ⟨hfd, htl⟩ := hall
      obtain ⟨b, hb⟩ := (hf hd).mpr hfd
      obtain ⟨bs, hbs⟩ := ih.mpr htl
      refine ⟨b :: bs, ?_⟩
      rw [hb, except_bind_ok, hbs, except_bind_ok]
      rfl

theorem pathway_validate_wf (r : RawPathway) (now : String) :
    (∃ p, Pathway.validate r now = Except.ok p) ↔
      RawPathway.wellFormed r = true := by
  cases hid : r.id with
  | none => simp [Pathway.validate, RawPathway.wellFormed, hid]
  | some i =>
    cases hn : r.name with
    | none => simp [Pathway.validate, RawPathway.wellFormed, hid, hn]
    | some n =>
      simp only [Pathway.validate, RawPathway.wellFormed, hid, hn,
        Option.isSome_some, Bool.true_and]
      constructor
      · rintro ⟨p, hp⟩
        cases hcs : (r.compounds.getD []).mapM Compound.validate with
        | error e =>
          rw [hcs, except_bind_error] at hp
          exact absurd hp (by simp)
        | ok cs =>
          rw [hcs, except_bind_ok] at hp
          cases hrs : (r.reactions.getD []).mapM Reaction.validate with
          | error e =>
            rw [hrs, except_bind_error] at hp
            exact absurd hp (by simp)
          | ok rs =>
            rw [hrs, except_bind_ok] at hp
            cases hm : r.metadata with
            | none =>
              rw [hm] at hp
              exact absurd hp (by simp)
            | some m =>
              rw [hm] at hp
              have hp' : (do
                  let md ← PathwayMetadata.validate m now
                  Except.ok (⟨i, n, r.description, cs, rs, md,
                    r.related_pathways.getD []⟩ : Pathway)) =
                  Except.ok p := hp
              cases hmd : PathwayMetadata.validate m now with
              | error e =>
                rw [hmd, except_bind_error] at hp'
                exact absurd hp' (by simp)
              | ok md =>
                have h1 := (mapM_validate_ok_iff Compound.validate
                  RawCompound.wf compound_validate_ok_iff _).mp ⟨cs, hcs⟩
                have h2 := (mapM_validate_ok_iff Reaction.validate
                  RawReaction.wf reaction_validate_ok_iff _).mp ⟨rs, hrs⟩
                have h3 := (metadata_validate_ok_iff m now).mp ⟨md, hmd⟩
                simp [hm, h1, h2, h3]
      · intro hwf
        rw [Bool.and_eq_true, Bool.and_eq_true] at hwf
        obtain ⟨⟨hcw, hrw⟩, hmw⟩ := hwf
        obtain ⟨cs, hcs⟩ := (mapM_validate_ok_iff Compound.validate
          RawCompound.wf compound_validate_ok_iff _).mpr hcw
        obtain ⟨rs, hrs⟩ := (mapM_validate_ok_iff Reaction.validate
          RawReaction.wf reaction_validate_ok_iff _).mpr hrw
        cases hm : r.metadata with
        | none =>
          rw [hm] at hmw
          exact absurd hmw (by simp)
        | some m =>
          rw [hm] at hmw
          have hmw' : RawMetadata.wf m = true := hmw
          obtain ⟨md, hmd⟩ := (metadata_validate_ok_iff m now).mpr hmw'
          refine ⟨⟨i, n, r.description, cs, rs, md,
            r.related_pathways.getD []⟩, ?_⟩
          rw [hcs, except_bind_ok, hrs, except_bind_ok]
          show (do
            let md' ← PathwayMetadata.validate m now
            Except.ok (⟨i, n, r.description, cs, rs, md',
              r.related_pathways.getD []⟩ : Pathway)) = _
          rw [hmd, except_bind_ok]

theorem wellFormed_iff_prop (r : RawPathway) :
    RawPathway.wellFormed r = true ↔
      (r.id.isSome = true ∧ r.name.isSome = true ∧
       (∀ c ∈ r.compounds.getD [], c.id.isSome = true ∧
         c.name.isSome = true) ∧
       (∀ x ∈ r.reactions.getD [], x.reactants.isSome = true ∧
         x.products.isSome = true) ∧
       (∃ m, r.metadata = some m ∧ m.source.isSome = true ∧
         (∃ q, m.confidence = some q ∧ 0 ≤ q ∧ q ≤ 1))) := by
  cases hm : r.metadata with
  | none =>
    simp [RawPathway.wellFormed, hm]
  | some m =>
    cases hc : m.confidence with
    | none =>
      simp [RawPathway.wellFormed, RawMetadata.wf, hm, hc]
    | some q =>
      simp [RawPathway.wellFormed, RawMetadata.wf, RawCompound.wf,
        RawReaction.wf, hm, hc, List.all_eq_true, and_assoc]

end RecordModelHelpers

/-- The rational three halves, the value of the float literal 1.5, written
as an explicit fraction in lowest terms. -/
def confHigh : ℚ := ⟨3, 2, by decide, by decide⟩

theorem confHigh_eq : confHigh = 1.5 := by
  rw [confHigh, Rat.mk'_eq_divInt]
  norm_num [Rat.divInt_eq_div]

/-- Raw constructor input for a pathway carrying every required field, one
nested compound, one nested reaction, and the given confidence. -/
def rawPathwayWith (conf : ℚ) : RawPathway :=
  ⟨some "GLY001", some "Glycolysis", none,
   some [⟨some "C00031", some "Glucose", some "C6H12O6"⟩],
   some [⟨some ["C00031"], some ["C00668"], none⟩],
   some ⟨some "KEGG", some conf, none, none, none⟩, none⟩

/-- Raw constructor input missing the id field. -/
def rawNoId : RawPathway :=
  ⟨none, some "Glycolysis", none, none, none,
   some ⟨some "KEGG", some 1, none, none, none⟩, none⟩

/-- C7: constructing a Pathway succeeds exactly when the required fields
id, name and metadata are present, metadata carries a source and a
confidence within the closed interval from 0 to 1, and every nested
Compound and Reaction carries its own required fields; and an input
missing id fails with a validation error naming id. -/
theorem pathway_construction_contract (r : RawPathway) (now : String) :
    ((∃ p, Pathway.validate r now = Except.ok p) ↔
      (r.id.isSome = true ∧ r.name.isSome = true ∧
       (∀ c ∈ r.compounds.getD [], c.id.isSome = true ∧
         c.name.isSome = true) ∧
       (∀ x ∈ r.reactions.getD [], x.reactants.isSome = true ∧
         x.products.isSome = true) ∧
       (∃ m, r.metadata = some m ∧ m.source.isSome = true ∧
         (∃ q, m.confidence = some q ∧ 0 ≤ q ∧ q ≤ 1)))) ∧
    (r.id = none →
      Pathway.validate r now = Except.error (.missing "id")) := by
  constructor
  · exact (pathway_validate_wf r now).trans (wellFormed_iff_prop r)
  · intro h
    unfold Pathway.validate
    rw [h]

/-- C7, witness: construction succeeds at confidence 1 and 0, fails at
confidence 3/2 (the literal 1.5), and an input missing id fails naming
id. -/
theorem pathway_construction_contract_witness :
    (∃ p, Pathway.validate (rawPathwayWith 1) "t0" = Except.ok p) ∧
    (∃ p, Pathway.validate (rawPathwayWith 0) "t0" = Except.ok p) ∧
    ¬(∃ p, Pathway.validate (rawPathwayWith confHigh) "t0" = Except.ok p) ∧
    Pathway.validate rawNoId "t0" = Except.error (.missing "id") := by
  refine ⟨?_, ?_, ?_, ?_⟩
  · refine (pathway_construction_contract (rawPathwayWith 1) "t0").1.mpr
      ⟨rfl, rfl, ?_, ?_, ⟨_, rfl, rfl, ⟨1, rfl, by decide, by decide⟩⟩⟩
    · intro c hc
      simp only [rawPathwayWith, Option.getD, List.mem_singleton] at hc
      subst hc
      exact ⟨rfl, rfl⟩
    · intro x hx
      simp only [rawPathwayWith, Option.getD, List.mem_singleton] at hx
      subst hx
      exact ⟨rfl, rfl⟩
  · refine (pathway_construction_contract (rawPathwayWith 0) "t0").1.mpr
      ⟨rfl, rfl, ?_, ?_, ⟨_, rfl, rfl, ⟨0, rfl, by decide, by decide⟩⟩⟩
    · intro c hc
      simp only [rawPathwayWith, Option.getD, List.mem_singleton] at hc
      subst hc
      exact ⟨rfl, rfl⟩
    · intro x hx
      simp only [rawPathwayWith, Option.getD, List.mem_singleton] at hx
      subst hx
      exact ⟨rfl, rfl⟩
  · intro h
    obtain ⟨-, -, -, -, m, hm, -, q, hq, -, hq1⟩ :=
      (pathway_construction_contract (rawPathwayWith confHigh) "t0").1.mp h
    have hm2 : some (⟨some "KEGG", some confHigh, none, none, none⟩ :
        RawMetadata) = some m := hm
    obtain rfl := Option.some.inj hm2
    have hqc : confHigh = q := Option.some.inj hq
    subst hqc
    exact absurd hq1 (by decide)
  · exact (pathway_construction_contract rawNoId "t0").2 rfl

end PathwayExplorer
